import Mathlib

/-!
# gtimer: the package-level facade of the levelled timing wheel

Source: `g/os/gtimer/gtimer.go`.  The file declares the package constants, the shared
`defaultTimer` and the package-level functions that forward to it.  The type `Timer`, its
methods and `New` are declared in other files of the package, so the facade is embedded
over an arbitrary implementation of them (`TimerAPI`).

Go values are embedded as follows.
* `time.Duration` is an `int64` count of nanoseconds: `Int`.
* A call either returns normally or panics; both leave a state behind: `Outcome`.
* `defaultTimer` is a pointer to a mutable object; its current value is passed in and out
  of every package-level function (state passing).
-/

namespace Gtimer

/-! ## Go preliminaries -/

/-- Go `time.Duration`: a signed count of nanoseconds. -/
abbrev Duration := Int

/-- Go `time.Nanosecond`. -/
def Nanosecond : Duration := 1

/-- Go `time.Microsecond`. -/
def Microsecond : Duration := 1000 * Nanosecond

/-- Go `time.Millisecond`. -/
def Millisecond : Duration := 1000 * Microsecond

/-- Go `math.MaxInt32`, that is `1<<31 - 1`. -/
def MaxInt32 : Int := 2 ^ 31 - 1

/-- The value carried by a Go panic.  Two kinds occur here: a string, as raised by `Exit`,
and the configuration error of the timer. -/
inductive PanicValue where
  | str (s : String)
  | configurationError
  deriving DecidableEq, Repr

/-- The result of a Go call on a mutable state `σ`: a normal return with a value, or a
panic with its value; the state reached is kept in both cases. -/
inductive Outcome (α σ : Type) where
  | ret (a : α) (s : σ)
  | panic (v : PanicValue) (s : σ)
  deriving DecidableEq, Repr

namespace Outcome

variable {α σ τ : Type}

/-- The state a call leaves behind. -/
def state : Outcome α σ → σ
  | ret _ s => s
  | panic _ s => s

/-- The returned value, when the call returns normally. -/
def value? : Outcome α σ → Option α
  | ret a _ => some a
  | panic _ _ => none

/-- A call used as a statement: the returned value is dropped, a panic propagates. -/
def discard : Outcome α σ → Outcome Unit σ
  | ret _ s => ret () s
  | panic v s => panic v s

/-- The same outcome over a transformed state. -/
def mapState (f : σ → τ) : Outcome α σ → Outcome α τ
  | ret a s => ret a (f s)
  | panic v s => panic v (f s)

end Outcome

/-! ## gtimer.go: constants -/

def STATUS_READY : Int := 0

def STATUS_RUNNING : Int := 1

def STATUS_STOPPED : Int := 2

def STATUS_CLOSED : Int := -1

def gPANIC_EXIT : String := "exit"

def gDEFAULT_TIMES : Int := MaxInt32

def gDEFAULT_SLOT_NUMBER : Int := 10

def gDEFAULT_WHEEL_INTERVAL : Duration := 50 * Millisecond

def gDEFAULT_WHEEL_LEVEL : Int := 6

/-! ## The methods of `*Timer` the facade calls -/

/-- The constructor and the methods of `*Timer` that `gtimer.go` calls, as parameters.
`T` is the state of a timer, `J` is `JobFunc`, `E` is the entry handle `*Entry`.
The `Add` family returns a handle; the `DelayAdd` family is called as a statement. -/
structure TimerAPI (T J E : Type) where
  New : Int → Duration → Int → Except PanicValue T
  Add : T → Duration → J → Outcome E T
  AddSingleton : T → Duration → J → Outcome E T
  AddOnce : T → Duration → J → Outcome E T
  AddTimes : T → Duration → Int → J → Outcome E T
  DelayAdd : T → Duration → Duration → J → Outcome Unit T
  DelayAddSingleton : T → Duration → Duration → J → Outcome Unit T
  DelayAddOnce : T → Duration → Duration → J → Outcome Unit T
  DelayAddTimes : T → Duration → Duration → Int → J → Outcome Unit T

/-- One method call on a timer: the receiver as it was when called, and the arguments in
the order of the parameter list. -/
inductive Call (T J : Type) where
  | Add (recv : T) (interval : Duration) (job : J)
  | AddSingleton (recv : T) (interval : Duration) (job : J)
  | AddOnce (recv : T) (interval : Duration) (job : J)
  | AddTimes (recv : T) (interval : Duration) (times : Int) (job : J)
  | DelayAdd (recv : T) (delay : Duration) (interval : Duration) (job : J)
  | DelayAddSingleton (recv : T) (delay : Duration) (interval : Duration) (job : J)
  | DelayAddOnce (recv : T) (delay : Duration) (interval : Duration) (job : J)
  | DelayAddTimes (recv : T) (delay : Duration) (interval : Duration) (times : Int) (job : J)
  deriving DecidableEq, Repr

/-- Attach a call log to an outcome. -/
def logged {α T J : Type} (log : List (Call T J)) (o : Outcome α T) :
    Outcome α (T × List (Call T J)) :=
  o.mapState (fun t => (t, log))

/-- An implementation instrumented with a call log: every method appends the record of
its call to the log and otherwise behaves as the implementation it wraps. -/
def TimerAPI.traced {T J E : Type} (api : TimerAPI T J E) :
    TimerAPI (T × List (Call T J)) J E where
  New := fun slot interval level =>
    match api.New slot interval level with
    | .ok t => .ok (t, [])
    | .error v => .error v
  Add := fun s interval job =>
    logged (s.2 ++ [Call.Add s.1 interval job]) (api.Add s.1 interval job)
  AddSingleton := fun s interval job =>
    logged (s.2 ++ [Call.AddSingleton s.1 interval job]) (api.AddSingleton s.1 interval job)
  AddOnce := fun s interval job =>
    logged (s.2 ++ [Call.AddOnce s.1 interval job]) (api.AddOnce s.1 interval job)
  AddTimes := fun s interval times job =>
    logged (s.2 ++ [Call.AddTimes s.1 interval times job]) (api.AddTimes s.1 interval times job)
  DelayAdd := fun s delay interval job =>
    logged (s.2 ++ [Call.DelayAdd s.1 delay interval job]) (api.DelayAdd s.1 delay interval job)
  DelayAddSingleton := fun s delay interval job =>
    logged (s.2 ++ [Call.DelayAddSingleton s.1 delay interval job])
      (api.DelayAddSingleton s.1 delay interval job)
  DelayAddOnce := fun s delay interval job =>
    logged (s.2 ++ [Call.DelayAddOnce s.1 delay interval job])
      (api.DelayAddOnce s.1 delay interval job)
  DelayAddTimes := fun s delay interval times job =>
    logged (s.2 ++ [Call.DelayAddTimes s.1 delay interval times job])
      (api.DelayAddTimes s.1 delay interval times job)

/-! ## gtimer.go: the shared timer and the package-level functions

Every function below takes the current value `dt` of the object `defaultTimer` points to
and leaves the new one in its outcome. -/

section Facade

variable {T J E : Type}

/-- `var defaultTimer = New(gDEFAULT_SLOT_NUMBER, gDEFAULT_WHEEL_INTERVAL, gDEFAULT_WHEEL_LEVEL)` -/
def defaultTimer (api : TimerAPI T J E) : Except PanicValue T :=
  api.New gDEFAULT_SLOT_NUMBER gDEFAULT_WHEEL_INTERVAL gDEFAULT_WHEEL_LEVEL

/-- `func Add(interval time.Duration, job JobFunc) *Entry` -/
def Add (api : TimerAPI T J E) (interval : Duration) (job : J) (dt : T) : Outcome E T :=
  api.Add dt interval job

/-- `func AddSingleton(interval time.Duration, job JobFunc) *Entry` -/
def AddSingleton (api : TimerAPI T J E) (interval : Duration) (job : J) (dt : T) :
    Outcome E T :=
  api.AddSingleton dt interval job

/-- `func AddOnce(interval time.Duration, job JobFunc) *Entry` -/
def AddOnce (api : TimerAPI T J E) (interval : Duration) (job : J) (dt : T) : Outcome E T :=
  api.AddOnce dt interval job

/-- `func AddTimes(interval time.Duration, times int, job JobFunc) *Entry` -/
def AddTimes (api : TimerAPI T J E) (interval : Duration) (times : Int) (job : J) (dt : T) :
    Outcome E T :=
  api.AddTimes dt interval times job

/-- `func SetTimeout(delay time.Duration, job JobFunc)`: the body is the statement
`AddOnce(delay, job)`. -/
def SetTimeout (api : TimerAPI T J E) (delay : Duration) (job : J) (dt : T) :
    Outcome Unit T :=
  (AddOnce api delay job dt).discard

/-- `func SetInterval(interval time.Duration, job JobFunc)`: the body is the statement
`Add(interval, job)`. -/
def SetInterval (api : TimerAPI T J E) (interval : Duration) (job : J) (dt : T) :
    Outcome Unit T :=
  (Add api interval job dt).discard

/-- `func DelayAdd(delay time.Duration, interval time.Duration, job JobFunc)` -/
def DelayAdd (api : TimerAPI T J E) (delay interval : Duration) (job : J) (dt : T) :
    Outcome Unit T :=
  api.DelayAdd dt delay interval job

/-- `func DelayAddSingleton(delay time.Duration, interval time.Duration, job JobFunc)` -/
def DelayAddSingleton (api : TimerAPI T J E) (delay interval : Duration) (job : J) (dt : T) :
    Outcome Unit T :=
  api.DelayAddSingleton dt delay interval job

/-- `func DelayAddOnce(delay time.Duration, interval time.Duration, job JobFunc)` -/
def DelayAddOnce (api : TimerAPI T J E) (delay interval : Duration) (job : J) (dt : T) :
    Outcome Unit T :=
  api.DelayAddOnce dt delay interval job

/-- `func DelayAddTimes(delay time.Duration, interval time.Duration, times int, job JobFunc)` -/
def DelayAddTimes (api : TimerAPI T J E) (delay interval : Duration) (times : Int) (job : J)
    (dt : T) : Outcome Unit T :=
  api.DelayAddTimes dt delay interval times job

/-- `func Exit()`: the body is `panic(gPANIC_EXIT)`.  `s` is whatever state the caller is in. -/
def Exit {σ : Type} (s : σ) : Outcome Unit σ :=
  Outcome.panic (PanicValue.str gPANIC_EXIT) s

end Facade

/-! ## The levelled timer behind the facade

`Timer`, `Entry`, `New` and the methods of `*Timer` are declared in files of the package
other than `gtimer.go`.  The definitions of this section follow the specification of the
package (sections 3, 4.3, 4.4, 4.5 and 7).

Scope of the model.  Which slot of which wheel an entry sits in is not tracked; an entry
records only whether it is attached to a slot.  Events are processed one at a time: the
completion of a job body (step 5 of the dispatcher) is taken before the next event. -/

namespace Model

/-- Modelled from the spec: the run policy of an Entry (section 3), one of Once, Times(n),
Singleton, Infinite.  Singleton is the policy of `AddSingleton`, "Infinite + Singleton". -/
inductive Policy where
  | Once
  | Times (n : Nat)
  | Singleton
  | Infinite
  deriving DecidableEq, Repr

/-- Modelled from the spec: whether the policy is Times(n) for some n. -/
def Policy.isTimes : Policy → Bool
  | Policy.Times _ => true
  | _ => false

/-- Modelled from the spec: how one execution of a job body ends (sections 3, 4.3 and 7).
The body returns its continuation signal, or raises the designated stop signal (it called
`Exit`), or faults with some other panic. -/
inductive JobOutcome where
  | cont (b : Bool)
  | exit
  | panicked
  deriving DecidableEq, Repr

/-- Modelled from the spec: the callable of an Entry.  It is either the job of the caller,
or, for the `DelayAdd` family, the internal one-shot job "whose firing performs the real
Add" of the given interval, policy and job (section 4.4). -/
inductive Job (J : Type) where
  | user (j : J)
  | delayedAdd (interval : Duration) (policy : Policy) (j : J)
  deriving DecidableEq, Repr

/-- Modelled from the spec: the Entry record (section 3), the type `Entry` of the package.
`status` takes the values of the `STATUS_` constants of `gtimer.go`.  `attached` stands
for the position bookkeeping: whether the Entry sits in a Slot. -/
structure Entry (J : Type) where
  job : Job J
  interval : Duration
  policy : Policy
  status : Int
  remaining : Nat
  attached : Bool
  deriving DecidableEq, Repr

/-- Modelled from the spec: the Levelled Timer (section 3), the type `Timer` of the
package: the configuration fixed at construction and the Entries created so far, an Entry
handle being the index of its Entry.  `invoked` is a ghost log: the handle of every Entry
whose job body was invoked, oldest first. -/
structure Timer (J : Type) where
  slotCount : Int
  baseTick : Duration
  levelCount : Int
  entries : List (Entry J)
  invoked : List Nat
  deriving DecidableEq, Repr

/-- Modelled from the spec: the constructor `New` of the package (section 6,
`NewTimer(slotCount, baseTick, levelCount)`): each option must be positive, otherwise the
Timer is not created (section 7, configuration errors at construction are fatal). -/
def NewTimer (J : Type) (slotCount : Int) (baseTick : Duration) (levelCount : Int) :
    Except PanicValue (Timer J) :=
  if slotCount ≤ 0 ∨ baseTick ≤ 0 ∨ levelCount ≤ 0 then
    Except.error PanicValue.configurationError
  else
    Except.ok { slotCount := slotCount, baseTick := baseTick, levelCount := levelCount,
                entries := [], invoked := [] }

/-- Modelled from the spec: a fresh Entry (section 3): Ready, sitting in a Slot, with the
counter of a Times(n) policy at n. -/
def newEntry {J : Type} (job : Job J) (interval : Duration) (policy : Policy) : Entry J :=
  { job := job, interval := interval, policy := policy, status := STATUS_READY,
    remaining := (match policy with
      | Policy.Times n => n
      | _ => 0),
    attached := true }

/-- Modelled from the spec: insertion of a fresh Entry into the wheel; returns its handle. -/
def Timer.addEntry {J : Type} (t : Timer J) (job : Job J) (interval : Duration)
    (policy : Policy) : Nat × Timer J :=
  (t.entries.length, { t with entries := t.entries ++ [newEntry job interval policy] })

/-- Modelled from the spec: the shape of the four `Add` methods of `*Timer` (sections 4.4
and 7): an invalid duration fails fast with a configuration error and schedules nothing,
otherwise the Entry is inserted and its handle returned. -/
def Timer.addChecked {J : Type} (t : Timer J) (invalid : Bool) (interval : Duration)
    (policy : Policy) (job : J) : Outcome Nat (Timer J) :=
  if invalid then Outcome.panic PanicValue.configurationError t
  else Outcome.ret (t.addEntry (Job.user job) interval policy).1
    (t.addEntry (Job.user job) interval policy).2

/-- Modelled from the spec: method `Add` of `*Timer` (section 4.4): Infinite policy; a
non-positive interval is a configuration error (section 7). -/
def Timer.Add {J : Type} (t : Timer J) (interval : Duration) (job : J) :
    Outcome Nat (Timer J) :=
  t.addChecked (decide (interval ≤ 0)) interval Policy.Infinite job

/-- Modelled from the spec: method `AddSingleton` of `*Timer` (section 4.4): Infinite +
Singleton; a non-positive interval is a configuration error (section 7). -/
def Timer.AddSingleton {J : Type} (t : Timer J) (interval : Duration) (job : J) :
    Outcome Nat (Timer J) :=
  t.addChecked (decide (interval ≤ 0)) interval Policy.Singleton job

/-- Modelled from the spec: method `AddOnce` of `*Timer` (section 4.4): fires exactly once
after the delay.  A negative delay is a configuration error (section 7).  About a delay of
zero the spec is not consistent: section 7 makes every non-positive delay a configuration
error, the scenario of section 8 has `AddOnce(0, job)` fire on the very next applicable
tick, and section 9 lists the case as an open question.  The guard below takes the
scenario of section 8; nothing proved in this file depends on the guard at zero. -/
def Timer.AddOnce {J : Type} (t : Timer J) (delay : Duration) (job : J) :
    Outcome Nat (Timer J) :=
  t.addChecked (decide (delay < 0)) delay Policy.Once job

/-- Modelled from the spec: method `AddTimes` of `*Timer` (section 4.4): fires up to
`times` times; a non-positive interval is a configuration error (section 7).  The spec
does not say what a `times` below one means; the counter then starts at zero. -/
def Timer.AddTimes {J : Type} (t : Timer J) (interval : Duration) (times : Int) (job : J) :
    Outcome Nat (Timer J) :=
  t.addChecked (decide (interval ≤ 0)) interval (Policy.Times times.toNat) job

/-- Modelled from the spec: the shape of the four `DelayAdd` methods of `*Timer` (section
4.4): "a one-shot Entry whose firing performs the real Add", placed after `delay`.  A
delay of zero means immediate eligibility (section 9); invalid durations are a
configuration error when the call is made (section 7). -/
def Timer.delayChecked {J : Type} (t : Timer J) (invalid : Bool) (delay interval : Duration)
    (policy : Policy) (job : J) : Outcome Unit (Timer J) :=
  if invalid then Outcome.panic PanicValue.configurationError t
  else Outcome.ret () (t.addEntry (Job.delayedAdd interval policy job) delay Policy.Once).2

/-- Modelled from the spec: method `DelayAdd` of `*Timer` (section 4.4). -/
def Timer.DelayAdd {J : Type} (t : Timer J) (delay interval : Duration) (job : J) :
    Outcome Unit (Timer J) :=
  t.delayChecked (decide (delay < 0 ∨ interval ≤ 0)) delay interval Policy.Infinite job

/-- Modelled from the spec: method `DelayAddSingleton` of `*Timer` (section 4.4). -/
def Timer.DelayAddSingleton {J : Type} (t : Timer J) (delay interval : Duration) (job : J) :
    Outcome Unit (Timer J) :=
  t.delayChecked (decide (delay < 0 ∨ interval ≤ 0)) delay interval Policy.Singleton job

/-- Modelled from the spec: method `DelayAddOnce` of `*Timer` (section 4.4). -/
def Timer.DelayAddOnce {J : Type} (t : Timer J) (delay interval : Duration) (job : J) :
    Outcome Unit (Timer J) :=
  t.delayChecked (decide (delay < 0 ∨ interval < 0)) delay interval Policy.Once job

/-- Modelled from the spec: method `DelayAddTimes` of `*Timer` (section 4.4). -/
def Timer.DelayAddTimes {J : Type} (t : Timer J) (delay interval : Duration) (times : Int)
    (job : J) : Outcome Unit (Timer J) :=
  t.delayChecked (decide (delay < 0 ∨ interval ≤ 0)) delay interval
    (Policy.Times times.toNat) job

/-- Modelled from the spec: the implementation of the methods of `*Timer` that the
package-level functions of `gtimer.go` are run against. -/
def specAPI (J : Type) : TimerAPI (Timer J) J Nat where
  New := NewTimer J
  Add := Timer.Add
  AddSingleton := Timer.AddSingleton
  AddOnce := Timer.AddOnce
  AddTimes := Timer.AddTimes
  DelayAdd := Timer.DelayAdd
  DelayAddSingleton := Timer.DelayAddSingleton
  DelayAddOnce := Timer.DelayAddOnce
  DelayAddTimes := Timer.DelayAddTimes

/-! ### The dispatcher (section 4.3) -/

/-- Modelled from the spec: what the dispatcher decides for a due Entry, steps 1 to 4 of
section 4.3. -/
inductive Decision where
  | drop
  | leave
  | skip
  | invoke
  deriving DecidableEq, Repr

/-- Modelled from the spec: steps 1 to 4 of the dispatcher (section 4.3).  A Closed Entry
is dropped; a Stopped one is left in place; a Singleton that is Running is skipped;
otherwise the job is invoked. -/
def dispatch {J : Type} (e : Entry J) : Decision :=
  if e.status = STATUS_CLOSED then Decision.drop
  else if e.status = STATUS_STOPPED then Decision.leave
  else if e.policy = Policy.Singleton ∧ e.status = STATUS_RUNNING then Decision.skip
  else Decision.invoke

/-- Modelled from the spec: the start of a firing (section 4.3 step 4 and section 3):
a Singleton is marked Running, the counter of a Times policy is decremented. -/
def Entry.start {J : Type} (e : Entry J) : Entry J :=
  { e with
    status := if e.policy = Policy.Singleton then STATUS_RUNNING else e.status,
    remaining := if e.policy.isTimes then e.remaining - 1 else e.remaining }

/-- Modelled from the spec: whether the end of a job body asks for retirement.  Returning
continue=false and raising the exit signal do (section 4.3); any other panic is "treated
as if the job returned continue=false for that firing (policy-dependent: Once/Times
retire; Infinite/Singleton reschedule normally)" (section 7). -/
def JobOutcome.stops (o : JobOutcome) (p : Policy) : Bool :=
  match o with
  | JobOutcome.cont b => !b
  | JobOutcome.exit => true
  | JobOutcome.panicked =>
    match p with
    | Policy.Once => true
    | Policy.Times _ => true
    | Policy.Singleton => false
    | Policy.Infinite => false

/-- Modelled from the spec: step 5 of the dispatcher (section 4.3): "if the job signals
continue=false, or policy is Once, or Times reaches zero, transition to Closed" (a Closed
Entry is detached); otherwise the Entry is reinserted, a Singleton going back to Ready. -/
def Entry.complete {J : Type} (o : JobOutcome) (e : Entry J) : Entry J :=
  if o.stops e.policy ∨ e.policy = Policy.Once ∨ (e.policy.isTimes = true ∧ e.remaining = 0) then
    { e with status := STATUS_CLOSED, attached := false }
  else
    { e with
      status := if e.policy = Policy.Singleton then STATUS_READY else e.status,
      attached := true }

/-- Modelled from the spec: the effect of running the job body on the timer: the internal
job of a `DelayAdd` call "performs the real Add"; what a job of the caller does is not
part of the timer. -/
def Timer.runJob {J : Type} (t : Timer J) : Job J → Timer J
  | Job.user _ => t
  | Job.delayedAdd interval policy j => (t.addEntry (Job.user j) interval policy).2

/-- Modelled from the spec: the firing of the Entry with handle `h` when the cursor
reaches its slot (section 4.3); `o` is how the job body ends if it is invoked.  Only an
Entry that sits in a Slot is reached. -/
def Timer.fire {J : Type} (t : Timer J) (h : Nat) (o : JobOutcome) : Timer J :=
  match t.entries[h]? with
  | none => t
  | some e =>
    if e.attached = false then t
    else
      match dispatch e with
      | Decision.drop => { t with entries := t.entries.set h { e with attached := false } }
      | Decision.leave => t
      | Decision.skip => t
      | Decision.invoke =>
        Timer.runJob
          { t with entries := t.entries.set h (e.start.complete o),
                   invoked := t.invoked ++ [h] }
          e.job

/-! ### Entry handle operations (section 4.5) -/

/-- Modelled from the spec: `Stop()`: "status → Stopped (idempotent)"; a no-op on a Closed
handle (section 7). -/
def Entry.Stop {J : Type} (e : Entry J) : Entry J :=
  if e.status = STATUS_CLOSED then e else { e with status := STATUS_STOPPED }

/-- Modelled from the spec: `Resume()`: "Stopped → Ready (idempotent, no-op if not
Stopped)". -/
def Entry.Resume {J : Type} (e : Entry J) : Entry J :=
  if e.status = STATUS_STOPPED then { e with status := STATUS_READY } else e

/-- Modelled from the spec: `Close()`: "status → Closed, detaches from its Slot;
idempotent". -/
def Entry.Close {J : Type} (e : Entry J) : Entry J :=
  { e with status := STATUS_CLOSED, attached := false }

/-- Modelled from the spec: a handle operation applied through the handle. -/
def Timer.onEntry {J : Type} (t : Timer J) (h : Nat) (f : Entry J → Entry J) : Timer J :=
  { t with entries := t.entries.modify f h }

/-- Modelled from the spec: what happens to a timer after construction: the cursor
reaches a due Entry (with the way its job body ends), or a caller uses a handle. -/
inductive Event where
  | fire (h : Nat) (o : JobOutcome)
  | stop (h : Nat)
  | resume (h : Nat)
  | close (h : Nat)
  deriving DecidableEq, Repr

/-- The handle an event is about. -/
def Event.target : Event → Nat
  | Event.fire h _ => h
  | Event.stop h => h
  | Event.resume h => h
  | Event.close h => h

/-- Modelled from the spec: the effect of one event. -/
def Timer.step {J : Type} (t : Timer J) : Event → Timer J
  | Event.fire h o => t.fire h o
  | Event.stop h => t.onEntry h Entry.Stop
  | Event.resume h => t.onEntry h Entry.Resume
  | Event.close h => t.onEntry h Entry.Close

/-- Modelled from the spec: the effect of a sequence of events, oldest first. -/
def Timer.run {J : Type} (t : Timer J) (evs : List Event) : Timer J :=
  evs.foldl Timer.step t

/-- The number of times the job body of the Entry with handle `h` has been invoked. -/
def Timer.invocations {J : Type} (t : Timer J) (h : Nat) : Nat :=
  t.invoked.count h

/-- The status of the Entry with handle `h`. -/
def Timer.status? {J : Type} (t : Timer J) (h : Nat) : Option Int :=
  (t.entries[h]?).map Entry.status

/-- The Entry with handle `h` is scheduled: it sits in a Slot and is not Closed. -/
def Timer.scheduled {J : Type} (t : Timer J) (h : Nat) : Bool :=
  match t.entries[h]? with
  | some e => e.attached && decide (e.status ≠ STATUS_CLOSED)
  | none => false

/-- The event is a firing of `h` whose job body signals stop: it returns continue=false
or raises the exit signal. -/
def Event.signalsStop (h : Nat) : Event → Bool
  | Event.fire k (JobOutcome.cont false) => decide (k = h)
  | Event.fire k JobOutcome.exit => decide (k = h)
  | _ => false

/-- The default instance of section 6, as constructed and before any call: slot count 10,
base tick 50 ms, 6 levels, no Entry.  Jobs are named by numbers. -/
def idleTimer : Timer Nat :=
  { slotCount := 10, baseTick := 50000000, levelCount := 6, entries := [], invoked := [] }

end Model

/-! ## The facade forwards to the shared timer -/

section FacadeTheorems

variable {T J E : Type}

/-- C1: each of the package-level `Add`, `AddSingleton`, `AddOnce` and `AddTimes` is a pure
proxy.  Over any implementation of the timer methods it behaves exactly as the same-named
method on the current `defaultTimer` with the same arguments in the same order; run on an
instrumented implementation it adds exactly one record to the call log, that of this very
call with `defaultTimer` as receiver, and its outcome (handle or panic, and state) is the
one of that call. -/
theorem add_family_is_proxy (api : TimerAPI T J E) (dt : T) (log : List (Call T J))
    (interval : Duration) (times : Int) (job : J) :
    (Add api interval job dt = api.Add dt interval job
      ∧ Add api.traced interval job (dt, log)
          = logged (log ++ [Call.Add dt interval job]) (api.Add dt interval job))
    ∧ (AddSingleton api interval job dt = api.AddSingleton dt interval job
      ∧ AddSingleton api.traced interval job (dt, log)
          = logged (log ++ [Call.AddSingleton dt interval job])
              (api.AddSingleton dt interval job))
    ∧ (AddOnce api interval job dt = api.AddOnce dt interval job
      ∧ AddOnce api.traced interval job (dt, log)
          = logged (log ++ [Call.AddOnce dt interval job]) (api.AddOnce dt interval job))
    ∧ (AddTimes api interval times job dt = api.AddTimes dt interval times job
      ∧ AddTimes api.traced interval times job (dt, log)
          = logged (log ++ [Call.AddTimes dt interval times job])
              (api.AddTimes dt interval times job)) :=
  ⟨⟨rfl, rfl⟩, ⟨rfl, rfl⟩, ⟨rfl, rfl⟩, ⟨rfl, rfl⟩⟩

/-- C2: the shared timer is the result of `New` applied to slot count 10, tick 50 ms
(50,000,000 ns) and level count 6, in this order; these are the values of
`gDEFAULT_SLOT_NUMBER`, `gDEFAULT_WHEEL_INTERVAL` and `gDEFAULT_WHEEL_LEVEL`. -/
theorem defaultTimer_is_New_10_50ms_6 (api : TimerAPI T J E) :
    defaultTimer api = api.New 10 50000000 6
    ∧ defaultTimer api
        = api.New gDEFAULT_SLOT_NUMBER gDEFAULT_WHEEL_INTERVAL gDEFAULT_WHEEL_LEVEL
    ∧ gDEFAULT_SLOT_NUMBER = 10
    ∧ gDEFAULT_WHEEL_INTERVAL = 50 * Millisecond
    ∧ gDEFAULT_WHEEL_INTERVAL = 50000000
    ∧ gDEFAULT_WHEEL_LEVEL = 6 := by
  have h : gDEFAULT_WHEEL_INTERVAL = 50000000 := by decide
  refine ⟨?_, rfl, rfl, rfl, h, rfl⟩
  unfold defaultTimer
  rw [h]
  rfl

/-- C3: `Exit` never returns normally: in every state it panics, and the value of the
panic is the string "exit", which is `gPANIC_EXIT`. -/
theorem Exit_panics_with_exit {σ : Type} (s : σ) :
    Exit s = Outcome.panic (PanicValue.str "exit") s
    ∧ Exit s = Outcome.panic (PanicValue.str gPANIC_EXIT) s
    ∧ (Exit s).value? = none
    ∧ ∀ (u : Unit) (s2 : σ), Exit s ≠ Outcome.ret u s2 := by
  refine ⟨rfl, rfl, rfl, ?_⟩
  intro u s2 h
  cases h

/-- C4: `SetTimeout(delay, job)` is `AddOnce(delay, job)` with the handle dropped, and
`SetInterval(interval, job)` is `Add(interval, job)` with the handle dropped: same state of
the default timer afterwards, same panic if any, same single call in the log of an
instrumented implementation, and no value returned. -/
theorem SetTimeout_SetInterval_discard (api : TimerAPI T J E) (dt : T)
    (log : List (Call T J)) (d : Duration) (job : J) :
    (SetTimeout api d job dt = (AddOnce api d job dt).discard
      ∧ (SetTimeout api d job dt).state = (AddOnce api d job dt).state
      ∧ SetTimeout api.traced d job (dt, log)
          = logged (log ++ [Call.AddOnce dt d job]) (api.AddOnce dt d job).discard)
    ∧ (SetInterval api d job dt = (Add api d job dt).discard
      ∧ (SetInterval api d job dt).state = (Add api d job dt).state
      ∧ SetInterval api.traced d job (dt, log)
          = logged (log ++ [Call.Add dt d job]) (api.Add dt d job).discard) := by
  refine ⟨⟨rfl, ?_, ?_⟩, ⟨rfl, ?_, ?_⟩⟩
  · unfold SetTimeout
    cases AddOnce api d job dt <;> rfl
  · show (logged _ (api.AddOnce dt d job)).discard = _
    cases api.AddOnce dt d job <;> rfl
  · unfold SetInterval
    cases Add api d job dt <;> rfl
  · show (logged _ (api.Add dt d job)).discard = _
    cases api.Add dt d job <;> rfl

/-- C5: each of the package-level `DelayAdd`, `DelayAddSingleton`, `DelayAddOnce` and
`DelayAddTimes` makes exactly one call, to the same-named method of `defaultTimer`, with
`delay` first and `interval` second, both unchanged, and returns no handle. -/
theorem delay_family_is_proxy (api : TimerAPI T J E) (dt : T) (log : List (Call T J))
    (delay interval : Duration) (times : Int) (job : J) :
    (DelayAdd api delay interval job dt = api.DelayAdd dt delay interval job
      ∧ DelayAdd api.traced delay interval job (dt, log)
          = logged (log ++ [Call.DelayAdd dt delay interval job])
              (api.DelayAdd dt delay interval job))
    ∧ (DelayAddSingleton api delay interval job dt
          = api.DelayAddSingleton dt delay interval job
      ∧ DelayAddSingleton api.traced delay interval job (dt, log)
          = logged (log ++ [Call.DelayAddSingleton dt delay interval job])
              (api.DelayAddSingleton dt delay interval job))
    ∧ (DelayAddOnce api delay interval job dt = api.DelayAddOnce dt delay interval job
      ∧ DelayAddOnce api.traced delay interval job (dt, log)
          = logged (log ++ [Call.DelayAddOnce dt delay interval job])
              (api.DelayAddOnce dt delay interval job))
    ∧ (DelayAddTimes api delay interval times job dt
          = api.DelayAddTimes dt delay interval times job
      ∧ DelayAddTimes api.traced delay interval times job (dt, log)
          = logged (log ++ [Call.DelayAddTimes dt delay interval times job])
              (api.DelayAddTimes dt delay interval times job)) :=
  ⟨⟨rfl, rfl⟩, ⟨rfl, rfl⟩, ⟨rfl, rfl⟩, ⟨rfl, rfl⟩⟩

end FacadeTheorems

/-! ## The levelled timer: frame and firing lemmas -/

namespace Model

variable {J : Type}

theorem runJob_invoked (t : Timer J) (j : Job J) : (t.runJob j).invoked = t.invoked := by
  cases j <;> rfl

theorem runJob_entries (t : Timer J) (j : Job J) (h : Nat) (e : Entry J)
    (he : t.entries[h]? = some e) : (t.runJob j).entries[h]? = some e := by
  cases j with
  | user _ => exact he
  | delayedAdd interval policy j =>
    have hlt : h < t.entries.length := by
      rcases List.getElem?_eq_some_iff.mp he with ⟨hlt, _⟩
      exact hlt
    show (t.entries ++ [newEntry (Job.user j) interval policy])[h]? = some e
    rw [List.getElem?_append_left hlt]
    exact he

theorem fire_eq (t : Timer J) (h : Nat) (o : JobOutcome) (e : Entry J)
    (he : t.entries[h]? = some e) :
    t.fire h o =
      if e.attached = false then t
      else
        match dispatch e with
        | Decision.drop => { t with entries := t.entries.set h { e with attached := false } }
        | Decision.leave => t
        | Decision.skip => t
        | Decision.invoke =>
          Timer.runJob
            { t with entries := t.entries.set h (e.start.complete o),
                     invoked := t.invoked ++ [h] }
            e.job := by
  unfold Timer.fire
  rw [he]

/-- Firing another Entry leaves the Entry with handle `h` and its invocation count as they
are. -/
theorem fire_other (t : Timer J) (k h : Nat) (o : JobOutcome) (e : Entry J)
    (hne : k ≠ h) (he : t.entries[h]? = some e) :
    (t.fire k o).entries[h]? = some e ∧ (t.fire k o).invocations h = t.invocations h := by
  cases hk : t.entries[k]? with
  | none =>
    have : t.fire k o = t := by
      unfold Timer.fire
      rw [hk]
    rw [this]
    exact ⟨he, rfl⟩
  | some ek =>
    rw [fire_eq t k o ek hk]
    cases hat : ek.attached with
    | false =>
      rw [if_pos rfl]
      exact ⟨he, rfl⟩
    | true =>
      rw [if_neg (by decide)]
      cases hd : dispatch ek with
      | drop =>
        refine ⟨?_, rfl⟩
        show (t.entries.set k _)[h]? = some e
        rw [List.getElem?_set_ne hne]
        exact he
      | leave => exact ⟨he, rfl⟩
      | skip => exact ⟨he, rfl⟩
      | invoke =>
        constructor
        · apply runJob_entries
          show (t.entries.set k _)[h]? = some e
          rw [List.getElem?_set_ne hne]
          exact he
        · show (Timer.runJob _ ek.job).invoked.count h = t.invoked.count h
          rw [runJob_invoked]
          show (t.invoked ++ [k]).count h = t.invoked.count h
          simp [List.count_append, List.count_singleton, hne]

/-- An attached Entry that the dispatcher invokes: the firing takes it through the start
and the completion of its job body and counts one more invocation. -/
theorem fire_self (t : Timer J) (h : Nat) (o : JobOutcome) (e : Entry J)
    (he : t.entries[h]? = some e) (hat : e.attached = true) (hd : dispatch e = Decision.invoke) :
    (t.fire h o).entries[h]? = some (e.start.complete o)
      ∧ (t.fire h o).invocations h = t.invocations h + 1 := by
  have hlt : h < t.entries.length := by
    rcases List.getElem?_eq_some_iff.mp he with ⟨hlt, _⟩
    exact hlt
  rw [fire_eq t h o e he, hat, if_neg (by decide), hd]
  constructor
  · apply runJob_entries
    show (t.entries.set h _)[h]? = some _
    simp [List.getElem?_set_self, hlt]
  · show (Timer.runJob _ e.job).invoked.count h = t.invoked.count h + 1
    rw [runJob_invoked]
    show (t.invoked ++ [h]).count h = t.invoked.count h + 1
    simp [List.count_append, List.count_singleton]

/-- A firing that reaches an Entry which is detached, Stopped, or a Running Singleton
changes nothing. -/
theorem fire_idle (t : Timer J) (h : Nat) (o : JobOutcome) (e : Entry J)
    (he : t.entries[h]? = some e)
    (hidle : e.attached = false ∨ dispatch e = Decision.leave ∨ dispatch e = Decision.skip) :
    t.fire h o = t := by
  rw [fire_eq t h o e he]
  cases hat : e.attached with
  | false => rw [if_pos rfl]
  | true =>
    rw [if_neg (by decide)]
    rcases hidle with h1 | h1 | h1
    · rw [hat] at h1
      cases h1
    · rw [h1]
    · rw [h1]

theorem onEntry_other (t : Timer J) (k h : Nat) (f : Entry J → Entry J) (e : Entry J)
    (hne : k ≠ h) (he : t.entries[h]? = some e) :
    (t.onEntry k f).entries[h]? = some e ∧ (t.onEntry k f).invocations h = t.invocations h := by
  refine ⟨?_, rfl⟩
  show (t.entries.modify f k)[h]? = some e
  rw [List.getElem?_modify]
  simp [hne, he]

theorem onEntry_self (t : Timer J) (h : Nat) (f : Entry J → Entry J) (e : Entry J)
    (he : t.entries[h]? = some e) :
    (t.onEntry h f).entries[h]? = some (f e)
      ∧ (t.onEntry h f).invocations h = t.invocations h := by
  refine ⟨?_, rfl⟩
  show (t.entries.modify f h)[h]? = some (f e)
  rw [List.getElem?_modify]
  simp [he]

/-- An event about another handle leaves the Entry with handle `h` and its invocation
count as they are. -/
theorem step_other (t : Timer J) (ev : Event) (h : Nat) (e : Entry J)
    (hne : ev.target ≠ h) (he : t.entries[h]? = some e) :
    (t.step ev).entries[h]? = some e ∧ (t.step ev).invocations h = t.invocations h := by
  cases ev with
  | fire k o => exact fire_other t k h o e hne he
  | stop k => exact onEntry_other t k h _ e hne he
  | resume k => exact onEntry_other t k h _ e hne he
  | close k => exact onEntry_other t k h _ e hne he

theorem run_cons (t : Timer J) (ev : Event) (evs : List Event) :
    t.run (ev :: evs) = (t.step ev).run evs := rfl

theorem addEntry_get (t : Timer J) (job : Job J) (interval : Duration) (policy : Policy) :
    (t.addEntry job interval policy).2.entries[(t.addEntry job interval policy).1]?
        = some (newEntry job interval policy)
      ∧ (t.addEntry job interval policy).2.invocations (t.addEntry job interval policy).1
        = t.invocations (t.addEntry job interval policy).1 := by
  refine ⟨?_, rfl⟩
  show (t.entries ++ [newEntry job interval policy])[t.entries.length]? = _
  simp

end Model

/-! ## The levelled timer: entries added through the facade -/

namespace Model

variable {J : Type}

/-- A successful add leaves the fresh Entry under the returned handle and invokes nothing. -/
theorem addChecked_ret (t t1 : Timer J) (invalid : Bool) (interval : Duration)
    (policy : Policy) (job : J) (h : Nat)
    (hadd : t.addChecked invalid interval policy job = Outcome.ret h t1) :
    t1.entries[h]? = some (newEntry (Job.user job) interval policy)
      ∧ t1.invocations h = t.invocations h := by
  unfold Timer.addChecked at hadd
  cases invalid with
  | true => simp at hadd
  | false =>
    simp only [Bool.false_eq_true, if_false] at hadd
    injection hadd with h1 h2
    subst h1
    subst h2
    exact addEntry_get t (Job.user job) interval policy

/-- The completion of a firing never changes the policy. -/
theorem complete_policy (e : Entry J) (o : JobOutcome) :
    (e.start.complete o).policy = e.policy := by
  unfold Entry.complete
  split <;> rfl

/-- A firing of an Infinite Entry whose job body does not ask for retirement puts the
Entry back in a Slot with its status unchanged. -/
theorem infinite_fire (e : Entry J) (o : JobOutcome) (hp : e.policy = Policy.Infinite)
    (ho : o.stops Policy.Infinite = false) :
    (e.start.complete o).attached = true ∧ (e.start.complete o).status = e.status := by
  cases e with
  | mk job interval policy status remaining attached =>
    simp only at hp
    subst hp
    simp [Entry.start, Entry.complete, Policy.isTimes, ho]

/-- A firing of `h` that does not signal stop ends in a way that does not retire an
Infinite Entry. -/
theorem not_signalsStop (h : Nat) (o : JobOutcome)
    (hs : (Event.fire h o).signalsStop h = false) : o.stops Policy.Infinite = false := by
  cases o with
  | cont b =>
    cases b with
    | true => rfl
    | false => simp [Event.signalsStop] at hs
  | exit => simp [Event.signalsStop] at hs
  | panicked => rfl

theorem dispatch_ready (e : Entry J) (hst : e.status = STATUS_READY)
    (hp : e.policy ≠ Policy.Singleton) : dispatch e = Decision.invoke := by
  unfold dispatch
  rw [hst]
  simp [STATUS_READY, STATUS_CLOSED, STATUS_STOPPED, hp]

theorem dispatch_stopped (e : Entry J) (hst : e.status = STATUS_STOPPED) :
    dispatch e = Decision.leave := by
  unfold dispatch
  rw [hst]
  simp [STATUS_CLOSED, STATUS_STOPPED]

/-- One event that neither closes `h` nor is a stop signal of its job keeps an Infinite
Entry in its Slot, Ready or Stopped. -/
theorem infinite_step (s : Timer J) (ev : Event) (h : Nat)
    (hinv : ∃ e, s.entries[h]? = some e ∧ e.policy = Policy.Infinite ∧ e.attached = true
      ∧ (e.status = STATUS_READY ∨ e.status = STATUS_STOPPED))
    (hev : ev ≠ Event.close h ∧ ev.signalsStop h = false) :
    ∃ e, (s.step ev).entries[h]? = some e ∧ e.policy = Policy.Infinite ∧ e.attached = true
      ∧ (e.status = STATUS_READY ∨ e.status = STATUS_STOPPED) := by
  obtain ⟨e, he, hp, hat, hst⟩ := hinv
  by_cases ht : ev.target = h
  · cases ev with
    | fire k o =>
      have hk : k = h := ht
      subst hk
      rcases hst with hst | hst
      · have hd := dispatch_ready e hst (by rw [hp]; decide)
        have hf := (fire_self s k o e he hat hd).1
        have hi := infinite_fire e o hp (not_signalsStop k o hev.2)
        refine ⟨_, hf, ?_, hi.1, ?_⟩
        · rw [complete_policy, hp]
        · rw [hi.2]
          exact Or.inl hst
      · have hidle := fire_idle s k o e he (Or.inr (Or.inl (dispatch_stopped e hst)))
        show ∃ e, (s.fire k o).entries[k]? = some e ∧ _
        rw [hidle]
        exact ⟨e, he, hp, hat, Or.inr hst⟩
    | stop k =>
      have hk : k = h := ht
      subst hk
      refine ⟨_, (onEntry_self s k Entry.Stop e he).1, ?_, ?_, ?_⟩
      · unfold Entry.Stop
        split <;> exact hp
      · unfold Entry.Stop
        split <;> exact hat
      · unfold Entry.Stop
        split
        · exact hst
        · exact Or.inr rfl
    | resume k =>
      have hk : k = h := ht
      subst hk
      refine ⟨_, (onEntry_self s k Entry.Resume e he).1, ?_, ?_, ?_⟩
      · unfold Entry.Resume
        split <;> exact hp
      · unfold Entry.Resume
        split <;> exact hat
      · unfold Entry.Resume
        split
        · exact Or.inl rfl
        · exact hst
    | close k =>
      have hk : k = h := ht
      subst hk
      exact absurd rfl hev.1
  · exact ⟨e, (step_other s ev h e ht he).1, hp, hat, hst⟩

/-- Any sequence of events that neither closes `h` nor holds a stop signal of its job
keeps an Infinite Entry in its Slot, Ready or Stopped. -/
theorem infinite_run (evs : List Event) (h : Nat) :
    ∀ s : Timer J,
      (∃ e, s.entries[h]? = some e ∧ e.policy = Policy.Infinite ∧ e.attached = true
        ∧ (e.status = STATUS_READY ∨ e.status = STATUS_STOPPED)) →
      (∀ ev ∈ evs, ev ≠ Event.close h ∧ ev.signalsStop h = false) →
      ∃ e, (s.run evs).entries[h]? = some e ∧ e.policy = Policy.Infinite ∧ e.attached = true
        ∧ (e.status = STATUS_READY ∨ e.status = STATUS_STOPPED) := by
  induction evs with
  | nil =>
    intro s hinv _
    exact hinv
  | cons ev evs ih =>
    intro s hinv hev
    rw [run_cons]
    apply ih
    · exact infinite_step s ev h hinv (hev ev (List.mem_cons_self ev evs))
    · intro ev2 hmem
      exact hev ev2 (List.mem_cons_of_mem ev hmem)

/-- Firings of a Ready Infinite Entry whose job body returns continue=true or faults all
invoke the job: the invocation count grows by the number of events about `h`. -/
theorem infinite_count (evs : List Event) (h : Nat) :
    ∀ s : Timer J,
      (∃ e, s.entries[h]? = some e ∧ e.policy = Policy.Infinite ∧ e.attached = true
        ∧ e.status = STATUS_READY) →
      (∀ ev ∈ evs, ev.target = h →
        ev = Event.fire h (JobOutcome.cont true) ∨ ev = Event.fire h JobOutcome.panicked) →
      (s.run evs).invocations h = s.invocations h + evs.countP (fun ev => ev.target = h) := by
  induction evs with
  | nil =>
    intro s _ _
    rfl
  | cons ev evs ih =>
    intro s hinv hev
    obtain ⟨e, he, hp, hat, hst⟩ := hinv
    have htail : ∀ ev2 ∈ evs, ev2.target = h →
        ev2 = Event.fire h (JobOutcome.cont true) ∨ ev2 = Event.fire h JobOutcome.panicked :=
      fun ev2 hmem => hev ev2 (List.mem_cons_of_mem ev hmem)
    rw [run_cons]
    by_cases ht : ev.target = h
    · have hd := dispatch_ready e hst (by rw [hp]; decide)
      have key : ∀ o : JobOutcome, o.stops Policy.Infinite = false →
          ((s.step (Event.fire h o)).run evs).invocations h
            = s.invocations h + (evs.countP (fun ev => ev.target = h) + 1) := by
        intro o ho
        have hf := fire_self s h o e he hat hd
        have hi := infinite_fire e o hp ho
        have hstep : (s.step (Event.fire h o)) = s.fire h o := rfl
        rw [hstep, ih (s.fire h o) ⟨_, hf.1, by rw [complete_policy, hp], hi.1,
          by rw [hi.2]; exact hst⟩ htail, hf.2]
        omega
      have hc : (ev :: evs).countP (fun ev => ev.target = h)
          = evs.countP (fun ev => ev.target = h) + 1 := by
        simp [List.countP_cons, ht]
      rw [hc]
      rcases hev ev (List.mem_cons_self ev evs) ht with hfire | hfire
      · rw [hfire]
        exact key _ rfl
      · rw [hfire]
        exact key _ rfl
    · have hc : (ev :: evs).countP (fun ev => ev.target = h)
          = evs.countP (fun ev => ev.target = h) := by
        simp [List.countP_cons, ht]
      rw [hc]
      have hs := step_other s ev h e ht he
      rw [ih (s.step ev) ⟨e, hs.1, hp, hat, hst⟩ htail, hs.2]

theorem scheduled_of_entry (s : Timer J) (h : Nat) (e : Entry J)
    (he : s.entries[h]? = some e) (hat : e.attached = true)
    (hst : e.status = STATUS_READY ∨ e.status = STATUS_STOPPED) : s.scheduled h = true := by
  unfold Timer.scheduled
  rw [he]
  rcases hst with hst | hst <;> simp [hat, hst, STATUS_READY, STATUS_STOPPED, STATUS_CLOSED]

end Model

/-! ## The levelled timer: Times(n) entries -/

namespace Model

variable {J : Type}

/-- The firing of a Ready Times Entry whose job body returns continue=true: the counter
goes down by one; at zero the Entry is Closed and detached, otherwise it is put back. -/
theorem times_fire (e : Entry J) (n r : Nat) (hp : e.policy = Policy.Times n)
    (hst : e.status = STATUS_READY) (hr : e.remaining = r) :
    (r = 1 → (e.start.complete (JobOutcome.cont true)).attached = false
        ∧ (e.start.complete (JobOutcome.cont true)).status = STATUS_CLOSED)
    ∧ (2 ≤ r → (e.start.complete (JobOutcome.cont true)).attached = true
        ∧ (e.start.complete (JobOutcome.cont true)).status = STATUS_READY
        ∧ (e.start.complete (JobOutcome.cont true)).remaining = r - 1) := by
  cases e with
  | mk job interval policy status remaining attached =>
    simp only at hp hst hr
    subst hp
    subst hst
    subst hr
    constructor
    · intro h1
      simp [Entry.start, Entry.complete, Policy.isTimes, JobOutcome.stops, h1]
    · intro h2
      have h0 : remaining - 1 ≠ 0 := by omega
      simp [Entry.start, Entry.complete, Policy.isTimes, JobOutcome.stops, h0]

/-- Once the Entry is Closed and detached, firings of it invoke nothing and it stays so. -/
theorem closed_run (evs : List Event) (h : Nat) :
    ∀ s : Timer J,
      (∃ e, s.entries[h]? = some e ∧ e.attached = false ∧ e.status = STATUS_CLOSED) →
      (∀ ev ∈ evs, ev.target = h → ev = Event.fire h (JobOutcome.cont true)) →
      (s.run evs).invocations h = s.invocations h
        ∧ ∃ e, (s.run evs).entries[h]? = some e ∧ e.attached = false
            ∧ e.status = STATUS_CLOSED := by
  induction evs with
  | nil =>
    intro s hinv _
    exact ⟨rfl, hinv⟩
  | cons ev evs ih =>
    intro s hinv hev
    obtain ⟨e, he, hat, hst⟩ := hinv
    have htail : ∀ ev2 ∈ evs, ev2.target = h → ev2 = Event.fire h (JobOutcome.cont true) :=
      fun ev2 hmem => hev ev2 (List.mem_cons_of_mem ev hmem)
    rw [run_cons]
    by_cases ht : ev.target = h
    · rw [hev ev (List.mem_cons_self ev evs) ht]
      have hstep : s.step (Event.fire h (JobOutcome.cont true)) = s := by
        show s.fire h (JobOutcome.cont true) = s
        exact fire_idle s h _ e he (Or.inl hat)
      rw [hstep]
      exact ih s ⟨e, he, hat, hst⟩ htail
    · have hs := step_other s ev h e ht he
      have := ih (s.step ev) ⟨e, hs.1, hat, hst⟩ htail
      rw [hs.2] at this
      exact this

/-- A Ready Times Entry with `r` firings left, under firings whose job body returns
continue=true: the job is invoked once per firing until `r` firings have happened, and
then the Entry is Closed and detached. -/
theorem times_run (evs : List Event) (h n : Nat) :
    ∀ (s : Timer J) (r : Nat), 1 ≤ r →
      (∃ e, s.entries[h]? = some e ∧ e.policy = Policy.Times n ∧ e.attached = true
        ∧ e.status = STATUS_READY ∧ e.remaining = r) →
      (∀ ev ∈ evs, ev.target = h → ev = Event.fire h (JobOutcome.cont true)) →
      (s.run evs).invocations h
          = s.invocations h + min (evs.count (Event.fire h (JobOutcome.cont true))) r
        ∧ (r ≤ evs.count (Event.fire h (JobOutcome.cont true)) →
            ∃ e, (s.run evs).entries[h]? = some e ∧ e.attached = false
              ∧ e.status = STATUS_CLOSED) := by
  induction evs with
  | nil =>
    intro s r hr _ _
    refine ⟨by simp [Timer.run], ?_⟩
    intro hle
    simp at hle
    omega
  | cons ev evs ih =>
    intro s r hr hinv hev
    obtain ⟨e, he, hp, hat, hst, hrem⟩ := hinv
    have htail : ∀ ev2 ∈ evs, ev2.target = h → ev2 = Event.fire h (JobOutcome.cont true) :=
      fun ev2 hmem => hev ev2 (List.mem_cons_of_mem ev hmem)
    rw [run_cons]
    by_cases ht : ev.target = h
    · have hfire := hev ev (List.mem_cons_self ev evs) ht
      subst hfire
      rw [List.count_cons_self]
      have hd := dispatch_ready e hst (by rw [hp]; simp)
      have hf := fire_self s h (JobOutcome.cont true) e he hat hd
      have hstep : s.step (Event.fire h (JobOutcome.cont true))
          = s.fire h (JobOutcome.cont true) := rfl
      rw [hstep]
      have htf := times_fire e n r hp hst hrem
      by_cases h1 : r = 1
      · have hc := closed_run evs h (s.fire h (JobOutcome.cont true))
          ⟨_, hf.1, (htf.1 h1).1, (htf.1 h1).2⟩ htail
        refine ⟨?_, fun _ => hc.2⟩
        rw [hc.1, hf.2, h1]
        simp
      · have h2 : 2 ≤ r := by omega
        have hi := ih (s.fire h (JobOutcome.cont true)) (r - 1) (by omega)
          ⟨_, hf.1, by rw [complete_policy, hp], (htf.2 h2).1, (htf.2 h2).2.1,
            (htf.2 h2).2.2⟩ htail
        refine ⟨?_, ?_⟩
        · rw [hi.1, hf.2]
          simp only [Nat.min_def]
          split <;> split <;> omega
        · intro hle
          exact hi.2 (by omega)
    · have hne : ev ≠ Event.fire h (JobOutcome.cont true) := by
        intro heq
        apply ht
        rw [heq]
        rfl
      rw [List.count_cons_of_ne (Ne.symm hne)]
      have hs := step_other s ev h e ht he
      have := ih (s.step ev) r hr ⟨e, hs.1, hp, hat, hst, hrem⟩ htail
      rw [hs.2] at this
      exact this

theorem closed_status (s : Timer J) (h : Nat)
    (hinv : ∃ e, s.entries[h]? = some e ∧ e.attached = false ∧ e.status = STATUS_CLOSED) :
    s.status? h = some STATUS_CLOSED ∧ s.scheduled h = false := by
  obtain ⟨e, he, hat, hst⟩ := hinv
  unfold Timer.status? Timer.scheduled
  rw [he]
  simp [hat, hst]

end Model

/-! ## The facade over the levelled timer -/

section OverTheTimer

open Model

variable {J : Type}

/-- C7: an Entry created by `Add` repeats until cancelled.  Let `h` be the handle `Add`
returned.  After any sequence of events in which `h` is not closed and its job does not
signal stop, the Entry is still scheduled, whatever the number of firings in the sequence.
If moreover every event about `h` is a firing whose job body returns continue=true or
faults, each of them invokes the job.  In particular the Entry is still scheduled, and has
been invoked each time, after `gDEFAULT_TIMES + 1` firings. -/
theorem Add_entry_repeats_until_cancelled (t t1 : Timer J) (interval : Duration) (job : J)
    (h : Nat) (hadd : Add (specAPI J) interval job t = Outcome.ret h t1) :
    (∀ evs : List Event,
        (∀ ev ∈ evs, ev ≠ Event.close h ∧ ev.signalsStop h = false) →
        (t1.run evs).scheduled h = true)
    ∧ (∀ evs : List Event,
        (∀ ev ∈ evs, ev.target = h →
          ev = Event.fire h (JobOutcome.cont true) ∨ ev = Event.fire h JobOutcome.panicked) →
        (t1.run evs).invocations h
          = t1.invocations h + evs.countP (fun ev => ev.target = h))
    ∧ (t1.run (List.replicate (gDEFAULT_TIMES.toNat + 1)
          (Event.fire h (JobOutcome.cont true)))).scheduled h = true
    ∧ (t1.run (List.replicate (gDEFAULT_TIMES.toNat + 1)
          (Event.fire h (JobOutcome.cont true)))).invocations h
        = t1.invocations h + (gDEFAULT_TIMES.toNat + 1) := by
  have hnew := addChecked_ret t t1 (decide (interval ≤ 0)) interval Policy.Infinite job h hadd
  have hsched : ∀ evs : List Event,
      (∀ ev ∈ evs, ev ≠ Event.close h ∧ ev.signalsStop h = false) →
      (t1.run evs).scheduled h = true := by
    intro evs hev
    obtain ⟨e, he, _, hat, hst⟩ :=
      infinite_run evs h t1 ⟨_, hnew.1, rfl, rfl, Or.inl rfl⟩ hev
    exact scheduled_of_entry _ h e he hat hst
  have hcount : ∀ evs : List Event,
      (∀ ev ∈ evs, ev.target = h →
        ev = Event.fire h (JobOutcome.cont true) ∨ ev = Event.fire h JobOutcome.panicked) →
      (t1.run evs).invocations h
        = t1.invocations h + evs.countP (fun ev => ev.target = h) := by
    intro evs hev
    exact infinite_count evs h t1 ⟨_, hnew.1, rfl, rfl, rfl⟩ hev
  refine ⟨hsched, hcount, ?_, ?_⟩
  · apply hsched
    intro ev hmem
    rw [List.eq_of_mem_replicate hmem]
    refine ⟨by simp, rfl⟩
  · rw [hcount]
    · congr 1
      rw [List.countP_replicate]
      simp [Event.target]
    · intro ev hmem _
      exact Or.inl (List.eq_of_mem_replicate hmem)

/-- C7 on the default instance: the Entry added with an interval of 100 ms is handle 0;
after a firing, a Stop, a Resume and a firing whose job body faults it is still scheduled,
and two firings invoke the job twice. -/
theorem Add_entry_repeats_until_cancelled_witness :
    Add (specAPI Nat) 100000000 7 idleTimer
        = Outcome.ret 0
            { idleTimer with entries := [newEntry (Job.user 7) 100000000 Policy.Infinite] }
    ∧ ((Add (specAPI Nat) 100000000 7 idleTimer).state.run
          [Event.fire 0 (JobOutcome.cont true), Event.stop 0, Event.resume 0,
            Event.fire 0 JobOutcome.panicked]).scheduled 0 = true
    ∧ ((Add (specAPI Nat) 100000000 7 idleTimer).state.run
          [Event.fire 0 (JobOutcome.cont true), Event.fire 0 JobOutcome.panicked]).invocations 0
        = 2 := by
  have hadd : Add (specAPI Nat) 100000000 7 idleTimer
      = Outcome.ret 0
          { idleTimer with entries := [newEntry (Job.user 7) 100000000 Policy.Infinite] } := by
    decide
  have hthm := Add_entry_repeats_until_cancelled idleTimer _ 100000000 7 0 hadd
  refine ⟨hadd, ?_, ?_⟩
  · rw [hadd]
    exact hthm.1 _ (by decide)
  · rw [hadd]
    exact (hthm.2.1 _ (by decide)).trans (by decide)

/-- C8: an Entry added with `AddTimes(interval, n, job)`, `n ≥ 1`, whose job body always
returns continue=true.  Let `h` be the handle returned and `k` the number of firings of
`h` so far.  The job has been invoked `min k n` times: once per firing up to the n-th, and
never after it.  From the n-th firing on, the status of the Entry is Closed and it is no
longer scheduled. -/
theorem AddTimes_fires_exactly_n (t t1 : Timer J) (interval : Duration) (n : Nat) (job : J)
    (h : Nat) (hn : 1 ≤ n)
    (hadd : AddTimes (specAPI J) interval (n : Int) job t = Outcome.ret h t1)
    (evs : List Event)
    (hev : ∀ ev ∈ evs, ev.target = h → ev = Event.fire h (JobOutcome.cont true)) :
    (t1.run evs).invocations h
        = t1.invocations h + min (evs.count (Event.fire h (JobOutcome.cont true))) n
    ∧ (n ≤ evs.count (Event.fire h (JobOutcome.cont true)) →
        (t1.run evs).status? h = some STATUS_CLOSED ∧ (t1.run evs).scheduled h = false) := by
  have hnew := addChecked_ret t t1 (decide (interval ≤ 0)) interval
    (Policy.Times (n : Int).toNat) job h hadd
  rw [Int.toNat_ofNat] at hnew
  have hrun := times_run evs h n t1 n hn ⟨_, hnew.1, rfl, rfl, rfl, rfl⟩ hev
  exact ⟨hrun.1, fun hle => closed_status _ h (hrun.2 hle)⟩

/-- C8 on the default instance: `AddTimes(100ms, 3, job)` returns handle 0; after four
firings the job has been invoked three times and the Entry is Closed. -/
theorem AddTimes_fires_exactly_n_witness :
    1 ≤ 3
    ∧ AddTimes (specAPI Nat) 100000000 3 7 idleTimer
        = Outcome.ret 0
            { idleTimer with entries := [newEntry (Job.user 7) 100000000 (Policy.Times 3)] }
    ∧ ((AddTimes (specAPI Nat) 100000000 3 7 idleTimer).state.run
          (List.replicate 4 (Event.fire 0 (JobOutcome.cont true)))).invocations 0 = 3
    ∧ ((AddTimes (specAPI Nat) 100000000 3 7 idleTimer).state.run
          (List.replicate 4 (Event.fire 0 (JobOutcome.cont true)))).status? 0
        = some STATUS_CLOSED := by
  have hadd : AddTimes (specAPI Nat) 100000000 ((3 : Nat) : Int) 7 idleTimer
      = Outcome.ret 0
          { idleTimer with entries := [newEntry (Job.user 7) 100000000 (Policy.Times 3)] } := by
    decide
  have hthm := AddTimes_fires_exactly_n idleTimer _ 100000000 3 7 0 (by decide) hadd
    (List.replicate 4 (Event.fire 0 (JobOutcome.cont true))) (by decide)
  refine ⟨by decide, hadd, ?_, ?_⟩
  · have h3 : AddTimes (specAPI Nat) 100000000 3 7 idleTimer
        = AddTimes (specAPI Nat) 100000000 ((3 : Nat) : Int) 7 idleTimer := rfl
    rw [h3, hadd]
    exact hthm.1.trans (by decide)
  · have h3 : AddTimes (specAPI Nat) 100000000 3 7 idleTimer
        = AddTimes (specAPI Nat) 100000000 ((3 : Nat) : Int) 7 idleTimer := rfl
    rw [h3, hadd]
    exact (hthm.2 (by decide)).1

end OverTheTimer

end Gtimer
